import Mathlib

/-!
Verification of the shared-memory buffer pool in
`awrams/utils/messaging/buffers.py`.

The Python module manages a fixed set of pre-allocated shared-memory numeric
buffers, checked out and returned through a FIFO free-list queue
(`multiprocessing.Queue`).  We embed it shallowly:

* a `multiprocessing.Array` / `Value` becomes `MpArray` (a ctype tag plus the
  flat list of stored elements);
* an ndarray view over such a buffer becomes `NdView` (shape, memory order,
  and the sequence of elements it exposes in row-major order);
* the free-list `mp.Queue` becomes a `List Nat` — `put` appends at the back,
  `get` removes the front; an empty queue blocks (no timeout) or raises
  `queue.Empty` (timeout given);
* fallible Python operations (`KeyError` on the dtype dict, `ValueError` on
  reshape, `queue.Empty`, `IndexError` on list indexing) become
  `Except` / `Option` results.
-/

namespace Buffers

/-- The ctypes-level storage codes appearing in `_ctypes_to_numpy`:
`ctypes.c_float`, `ctypes.c_double` and the raw typecode `'d'`. -/
inductive Ctype where
  | c_float
  | c_double
  | d_code
deriving DecidableEq, Repr

/-- Numpy element dtypes a caller might request.  The Python table registers
only `float32` and `float64`; the remaining constructors stand for the
unregistered dtypes. -/
inductive NpDtype where
  | float32
  | float64
  | int32
  | int64
  | uint8
  | bool_
deriving DecidableEq, Repr

/-- The entries of the Python dict literal `_ctypes_to_numpy`
`{c_float: float32, c_double: float64, 'd': float64}`, in source order. -/
def ctypesToNumpyPairs : List (Ctype × NpDtype) :=
  [(.c_float, .float32), (.c_double, .float64), (.d_code, .float64)]

/-- Lookup in `_ctypes_to_numpy`.  Every `Ctype` key is present, so the
lookup is total. -/
def _ctypes_to_numpy : Ctype → NpDtype
  | .c_float => .float32
  | .c_double => .float64
  | .d_code => .float64

/-- `_numpy_to_ctypes = dict(zip(values, keys))` of `_ctypes_to_numpy`.
A Python dict built from a pair list keeps the LAST binding of a duplicated
key, so `float64` ends up mapped to the typecode `'d'` (which overrides
`c_double`).  Lookup of an absent key raises `KeyError`, modelled as `none`. -/
def _numpy_to_ctypes (d : NpDtype) : Option Ctype :=
  ((ctypesToNumpyPairs.map (fun p => (p.2, p.1))).reverse.find?
    (fun p => p.1 == d)).map (·.2)

/-- A `multiprocessing.Array` (or `Value`): a ctype tag and the flat list of
stored elements.  Element values are modelled as integers — the claims under
verification never depend on floating-point arithmetic, only on element
identity and count. -/
structure MpArray where
  ctype : Ctype
  data : List Int
deriving DecidableEq, Repr

/-- The errors raised by the Python module: `KeyError` on an unregistered
dtype (`UnsupportedDtype`), `ValueError` on a reshape whose element count
disagrees with the buffer (`ShapeMismatch`), and `KeyError` on a missing
shapes-dict key. -/
inductive BufErr where
  | UnsupportedDtype
  | ShapeMismatch
  | KeyError
deriving DecidableEq, Repr

/-- Memory order argument of `reshape` (`'C'` row-major / `'F'` column-major). -/
inductive MemOrder where
  | C
  | F
deriving DecidableEq, Repr

/-- An ndarray view over an `MpArray`: shape, memory order, and the elements
the view exposes, flattened in row-major order. -/
structure NdView where
  shape : List Nat
  order : MemOrder
  data : List Int
deriving DecidableEq, Repr

instance : Inhabited NdView := ⟨⟨[], .C, []⟩⟩

/-- `shm_as_ndarray(mp_array, shape=None, order='C')`: `np.frombuffer` yields
a flat one-dimensional view over all elements; if `shape` is given the view
is reshaped, which succeeds exactly when the product of the dimensions equals
the element count and otherwise raises `ValueError` (`ShapeMismatch`).
Reshaping never copies: the exposed elements are the buffer's elements. -/
def shm_as_ndarray (mp_array : MpArray) (shape : Option (List Nat))
    (order : MemOrder) : Except BufErr NdView :=
  let result : NdView := ⟨[mp_array.data.length], .C, mp_array.data⟩
  match shape with
  | none => .ok result
  | some s =>
      if s.prod = mp_array.data.length then
        .ok ⟨s, order, mp_array.data⟩
      else
        .error .ShapeMismatch

/-- `init_shm_ndarray(shape, dtype)`: looks the dtype up in
`_numpy_to_ctypes` (raising `KeyError` — `UnsupportedDtype` — when absent)
and allocates `int(np.prod(shape))` zero-initialised elements. -/
def init_shm_ndarray (shape : List Nat) (dtype : NpDtype) :
    Except BufErr MpArray :=
  match _numpy_to_ctypes dtype with
  | none => .error .UnsupportedDtype
  | some ct => .ok ⟨ct, List.replicate shape.prod 0⟩

/-- `init_shm_value(dtype)`: a single shared element of the given dtype. -/
def init_shm_value (dtype : NpDtype) : Except BufErr MpArray :=
  match _numpy_to_ctypes dtype with
  | none => .error .UnsupportedDtype
  | some ct => .ok ⟨ct, [0]⟩

/-- Outcome of `mp.Queue.get(timeout=...)`: an item, the `queue.Empty`
exception (timeout given and nothing arrived), or an indefinite block
(no timeout and the queue stays empty — in this sequential model no other
producer can run, so the call never returns). -/
inductive QGet (α : Type) where
  | got (a : α)
  | timedOut
  | blocked
deriving DecidableEq, Repr

/-- `queue.get(timeout)` on the FIFO: removes the oldest item; on an empty
queue it times out (when a timeout is supplied) or blocks, leaving the
queue as it was. -/
def queueGet (q : List Nat) (timeout : Option Nat) : QGet Nat × List Nat :=
  match q with
  | [] => (if timeout.isSome then .timedOut else .blocked, q)
  | x :: xs => (.got x, xs)

/-- `queue.put(id)`: appends at the back of the FIFO, unconditionally. -/
def queuePut (q : List Nat) (buffer_id : Nat) : List Nat :=
  q ++ [buffer_id]

/-- Numpy integer indexing `view[i]` along the leading axis: negative
indices wrap, out-of-range indices raise `IndexError` (`none`), and a
zero-dimensional view cannot be indexed.  The result is the `i`-th
row-major block, with the leading axis removed. -/
def npIndex (v : NdView) (i : Int) : Option NdView :=
  match v.shape with
  | [] => none
  | s0 :: rest =>
      let j : Int := if i < 0 then i + s0 else i
      if 0 ≤ j ∧ j < (s0 : Int) then
        some ⟨rest, v.order, (v.data.drop (j.toNat * rest.prod)).take rest.prod⟩
      else
        none

/-- Numpy basic slicing `view[0:L]` along the leading axis: keeps the first
`min L s0` leading entries (slicing clamps, it never raises for an
over-long stop), fails on a zero-dimensional view. -/
def npSlice (v : NdView) (L : Nat) : Option NdView :=
  match v.shape with
  | [] => none
  | s0 :: rest =>
      some ⟨min L s0 :: rest, v.order, v.data.take (min L s0 * rest.prod)⟩

/-- The `BufferManager` class: the free-list queue, the raw shared buffers,
the common shape, and the process-local ndarray views `buffers_np`. -/
structure BufferManager where
  buffers_shm : List MpArray
  queue : List Nat
  buf_shape : Option (List Nat)
  buffers_np : List NdView
deriving Repr

/-- `BufferManager.rebuild_buffers`: re-derives `buffers_np` from the raw
handles via `shm_as_ndarray(b, self.buf_shape)`. -/
def BufferManager.rebuild_buffers (m : BufferManager) :
    Except BufErr BufferManager := do
  let np ← m.buffers_shm.mapM (fun b => shm_as_ndarray b m.buf_shape .C)
  return { m with buffers_np := np }

/-- `BufferManager.map_buffer(buffer_id, indices=None)`: Python tests
`if not indices:` — so `None`, the integer `0`, or any other falsy value
selects the WHOLE slot view; only a truthy index applies the projection
`self.buffers_np[buffer_id][indices]`.  `none` is an `IndexError`. -/
def BufferManager.map_buffer (m : BufferManager) (buffer_id : Nat)
    (indices : Option Int) : Option NdView :=
  match m.buffers_np[buffer_id]? with
  | none => none
  | some v =>
      match indices with
      | none => some v
      | some i => if i = 0 then some v else npIndex v i

/-- `BufferManager.get_buffer(timeout=None)`: dequeues a slot id and returns
it with `self.map_buffer(buffer_id)`; on an empty queue the call times out
or blocks with the manager unchanged. -/
def BufferManager.get_buffer (m : BufferManager) (timeout : Option Nat) :
    QGet (Nat × Option NdView) × BufferManager :=
  match m.queue with
  | [] => (if timeout.isSome then .timedOut else .blocked, m)
  | buffer_id :: rest =>
      (.got (buffer_id, m.map_buffer buffer_id none), { m with queue := rest })

/-- `BufferManager.reclaim(buffer_id)`: `self.queue.put(buffer_id)` —
unconditional, with no membership or duplicate check. -/
def BufferManager.reclaim (m : BufferManager) (buffer_id : Nat) :
    BufferManager :=
  { m with queue := queuePut m.queue buffer_id }

/-- A slot of the dict variant: field name → ndarray view (`ObjectDict`
modelled as an association list in insertion order). -/
@[reducible]
def DictSlot : Type := List (String × NdView)

/-- `shm_to_nd_dict(buffers, shape=None)` restricted to the common-shape /
`None` case (the only one the managers use): converts every field with
`shm_as_ndarray(v, shape)`. -/
def shm_to_nd_dict (buffers : List (String × MpArray))
    (shape : Option (List Nat)) (order : MemOrder) :
    Except BufErr (List (String × NdView)) :=
  buffers.mapM (fun kv => (shm_as_ndarray kv.2 shape order).map ((kv.1, ·)))

/-- The `BufferedDictManager` class: free-list queue, raw per-field shared
buffers per slot, and the rebuilt per-slot field → view mappings. -/
structure BufferedDictManager where
  buffers_shm : List (List (String × MpArray))
  queue : List Nat
  buffers_nd : List DictSlot
deriving Repr

/-- `BufferedDictManager.rebuild_buffers`: `shm_to_nd_dict(b)` per slot
(shape `None`, so every field view is flat one-dimensional). -/
def BufferedDictManager.rebuild_buffers (m : BufferedDictManager) :
    Except BufErr BufferedDictManager := do
  let nd ← m.buffers_shm.mapM (fun b => shm_to_nd_dict b none .C)
  return { m with buffers_nd := nd }

/-- The loop `for k, v in items: buffers[k] = v[0:buffer_len]` of
`BufferedDictManager.map_buffer`: truncates every field view, propagating
an `IndexError` from the slicing. -/
def truncFields (slot : DictSlot) (L : Nat) : Option DictSlot :=
  match slot with
  | [] => some []
  | kv :: tl =>
      match npSlice kv.2 L with
      | none => none
      | some w =>
          match truncFields tl L with
          | none => none
          | some r => some ((kv.1, w) :: r)

/-- `BufferedDictManager.map_buffer(buffer_id, buffer_len=None)`: the full
field → view mapping when `buffer_len is None`, otherwise every field
truncated to `v[0:buffer_len]`. -/
def BufferedDictManager.map_buffer (m : BufferedDictManager)
    (buffer_id : Nat) (buffer_len : Option Nat) : Option DictSlot :=
  match m.buffers_nd[buffer_id]? with
  | none => none
  | some slot =>
      match buffer_len with
      | none => some slot
      | some L => truncFields slot L

/-- `BufferedDictManager.get_buffer(buffer_len=None, timeout=None)`. -/
def BufferedDictManager.get_buffer (m : BufferedDictManager)
    (buffer_len : Option Nat) (timeout : Option Nat) :
    QGet (Nat × Option DictSlot) × BufferedDictManager :=
  match m.queue with
  | [] => (if timeout.isSome then .timedOut else .blocked, m)
  | buffer_id :: rest =>
      (.got (buffer_id, m.map_buffer buffer_id buffer_len),
        { m with queue := rest })

/-- `BufferedDictManager.reclaim(buffer_id)`: unconditional `queue.put`. -/
def BufferedDictManager.reclaim (m : BufferedDictManager)
    (buffer_id : Nat) : BufferedDictManager :=
  { m with queue := queuePut m.queue buffer_id }

/-- `create_buffers(buf_count, buf_shape, dtype)`: allocates `buf_count`
shared arrays of the given shape and enqueues `0, 1, …, buf_count-1` as the
loop runs. -/
def create_buffers (buf_count : Nat) (buf_shape : List Nat)
    (dtype : NpDtype) : Except BufErr (List MpArray × List Nat) := do
  let buffers ← (List.range buf_count).mapM
    (fun _ => init_shm_ndarray buf_shape dtype)
  return (buffers, List.range buf_count)

/-- `create_dict_buffers(recordables, buf_count, buf_len, dtype)`: per slot,
one shared array of length `buf_len` per field name; the queue is seeded
`0, 1, …, buf_count-1` exactly as in `create_buffers`. -/
def create_dict_buffers (recordables : List String) (buf_count : Nat)
    (buf_len : Nat) (dtype : NpDtype) :
    Except BufErr (List (List (String × MpArray)) × List Nat) := do
  let buffers ← (List.range buf_count).mapM
    (fun _ => recordables.mapM
      (fun k => (init_shm_ndarray [buf_len] dtype).map ((k, ·))))
  return (buffers, List.range buf_count)

/-- The allocation loop of `create_shm_dict_inputs`: fields whose shape is
`None` or empty get a one-element buffer `init_shm_ndarray((1,))`, other
fields get a buffer of their own shape. -/
def allocInputFields :
    List (String × Option (List Nat)) → NpDtype →
      Except BufErr (List (String × MpArray))
  | [], _ => .ok []
  | kv :: tl, dtype =>
      match (match kv.2 with
        | none => init_shm_ndarray [1] dtype
        | some s =>
            if s.length = 0 then init_shm_ndarray [1] dtype
            else init_shm_ndarray s dtype) with
      | .error e => .error e
      | .ok buf =>
          match allocInputFields tl dtype with
          | .error e => .error e
          | .ok rest => .ok ((kv.1, buf) :: rest)

/-- `create_shm_dict_inputs(shape_map, dtype)`: allocates per-field buffers
via `allocInputFields`; the `shapes` half of the result stores the ORIGINAL
shapes unchanged (including `None` and empty ones). -/
def create_shm_dict_inputs (shape_map : List (String × Option (List Nat)))
    (dtype : NpDtype) :
    Except BufErr
      (List (String × MpArray) × List (String × Option (List Nat))) :=
  match allocInputFields shape_map dtype with
  | .error e => .error e
  | .ok buffers => .ok (buffers, shape_map)

/-- The reconstruction loop of `shm_to_nd_dict_inputs`: per field, looks the
shape up in the `shapes` dict (`KeyError` when absent) and maps the buffer
with shape `(1,)` when the stored shape is `None` or empty, else with the
stored shape. -/
def mapInputFields :
    List (String × MpArray) → List (String × Option (List Nat)) →
      MemOrder → Except BufErr (List (String × NdView))
  | [], _, _ => .ok []
  | kv :: tl, shapes, order =>
      match shapes.lookup kv.1 with
      | none => .error .KeyError
      | some sh =>
          match (match sh with
            | none => shm_as_ndarray kv.2 (some [1]) order
            | some s =>
                if s.length = 0 then shm_as_ndarray kv.2 (some [1]) order
                else shm_as_ndarray kv.2 (some s) order) with
          | .error e => .error e
          | .ok v =>
              match mapInputFields tl shapes order with
              | .error e => .error e
              | .ok rest => .ok ((kv.1, v) :: rest)

/-- `shm_to_nd_dict_inputs(buffers, shapes, order)`. -/
def shm_to_nd_dict_inputs (buffers : List (String × MpArray))
    (shapes : List (String × Option (List Nat))) (order : MemOrder) :
    Except BufErr (List (String × NdView)) :=
  mapInputFields buffers shapes order

/-- `create_managed_buffers(count, shape, dtype, build=True)`: allocates the
pool and wraps it in a `BufferManager`, rebuilding the local views. -/
def create_managed_buffers (count : Nat) (shape : List Nat)
    (dtype : NpDtype) : Except BufErr BufferManager := do
  let bq ← create_buffers count shape dtype
  BufferManager.rebuild_buffers ⟨bq.1, bq.2, some shape, []⟩

/-- Ghost protocol state of one pool: the free-list queue together with the
multiset of slot ids currently checked out by consumers. -/
structure PoolState where
  queue : List Nat
  held : List Nat
deriving DecidableEq, Repr

/-- One step of the cooperative checkout protocol over the pool's queue:
a consumer either dequeues the oldest free id (the effect of
`BufferManager.get_buffer` on the queue) or returns an id it currently
holds (the effect of `BufferManager.reclaim`, i.e. `queuePut`).  The side
condition `buffer_id ∈ held` is exactly the cooperative contract: reclaim
is called only with an id that is checked out. -/
inductive CoopStep : PoolState → PoolState → Prop where
  | get (buffer_id : Nat) (rest held : List Nat) :
      CoopStep ⟨buffer_id :: rest, held⟩ ⟨rest, buffer_id :: held⟩
  | reclaim (q held : List Nat) (buffer_id : Nat)
      (mem : buffer_id ∈ held) :
      CoopStep ⟨q, held⟩ ⟨queuePut q buffer_id, held.erase buffer_id⟩

/-- States reachable by the cooperative protocol from a freshly seeded pool
of size `N` (queue `0, 1, …, N-1`, nothing checked out). -/
def Reachable (N : Nat) (s : PoolState) : Prop :=
  Relation.ReflTransGen CoopStep ⟨List.range N, []⟩ s

/-- `n` successive `get_buffer` calls with no intervening reclaim, collecting
the outcomes. -/
def drainManager (timeout : Option Nat) :
    Nat → BufferManager → List (QGet (Nat × Option NdView)) × BufferManager
  | 0, m => ([], m)
  | n + 1, m =>
      let r := m.get_buffer timeout
      let rest := drainManager timeout n r.2
      (r.1 :: rest.1, rest.2)

/-- The slot id carried by a successful `get_buffer` outcome. -/
def gotId {α : Type} : QGet (Nat × α) → Option Nat
  | .got p => some p.1
  | .timedOut => none
  | .blocked => none

/-- The shape `shm_to_nd_dict_inputs` actually maps a field with: `(1,)`
when the stored shape is `None` or empty, else the stored shape itself. -/
def input_shape (sh : Option (List Nat)) : List Nat :=
  match sh with
  | none => [1]
  | some s => if s.length = 0 then [1] else s

/-- A two-element sample view over a shared buffer, used as concrete input. -/
def sampleView : NdView := ⟨[2], .C, [5, 7]⟩

/-- A one-slot pool holding `sampleView`; its free list contains slot 0. -/
def sampleManager : BufferManager :=
  ⟨[⟨.d_code, [5, 7]⟩], [0], some [2], [sampleView]⟩

/-- A two-slot pool with views `[0]` and `[0]`, freshly seeded. -/
def twoSlotManager : BufferManager :=
  ⟨[⟨.d_code, [0]⟩, ⟨.d_code, [0]⟩], [0, 1], some [1],
    [⟨[1], .C, [0]⟩, ⟨[1], .C, [0]⟩]⟩

/-- A three-slot pool whose free list holds ids `3, 5, 9`. -/
def threeSlotManager : BufferManager :=
  ⟨[], [3, 5, 9], none, []⟩

/-- A pool whose free list is empty (all slots checked out). -/
def emptyQueueManager : BufferManager := ⟨[], [], none, []⟩

/-- A dict pool whose free list is empty. -/
def emptyQueueDictManager : BufferedDictManager := ⟨[], [], []⟩

/-- A record slot holding fields `x` (length 3) and `y` (length 2). -/
def sampleDictSlot : DictSlot :=
  [("x", ⟨[3], .C, [1, 2, 3]⟩), ("y", ⟨[2], .C, [4, 5]⟩)]

/-- A one-slot dict pool holding `sampleDictSlot`. -/
def sampleDictManager : BufferedDictManager :=
  ⟨[], [0], [sampleDictSlot]⟩

end Buffers

namespace Buffers

/-- **C4** View-shape validation: for every buffer and every explicitly given
shape, `shm_as_ndarray` succeeds iff the product of the shape's dimensions
equals the buffer's element count; when they disagree it fails with
`ShapeMismatch`; with the shape omitted it yields a flat one-dimensional
view spanning the whole buffer. -/
theorem view_shape_validation (arr : MpArray) (s : List Nat)
    (ord : MemOrder) :
    ((∃ v, shm_as_ndarray arr (some s) ord = .ok v) ↔
      s.prod = arr.data.length) ∧
    (s.prod ≠ arr.data.length →
      shm_as_ndarray arr (some s) ord = .error .ShapeMismatch) ∧
    shm_as_ndarray arr none ord = .ok ⟨[arr.data.length], .C, arr.data⟩ := by
  by_cases h : s.prod = arr.data.length <;>
    simp [shm_as_ndarray, h]

/-- Witness for C4 on concrete inputs: shape `[2, 3]` fits a 6-element
buffer, shape `[4]` does not, and the shape-free call flattens. -/
theorem view_shape_validation_witness :
    (∃ v, shm_as_ndarray ⟨.c_double, [0, 1, 2, 3, 4, 5]⟩ (some [2, 3]) .C
      = .ok v) ∧
    shm_as_ndarray ⟨.c_double, [0, 1, 2, 3, 4, 5]⟩ (some [4]) .C
      = .error .ShapeMismatch ∧
    shm_as_ndarray ⟨.c_double, [0, 1, 2, 3, 4, 5]⟩ none .C
      = .ok ⟨[6], .C, [0, 1, 2, 3, 4, 5]⟩ := by
  refine ⟨(view_shape_validation ⟨.c_double, [0, 1, 2, 3, 4, 5]⟩ [2, 3] .C).1.mpr
    (by decide), (view_shape_validation ⟨.c_double, [0, 1, 2, 3, 4, 5]⟩ [4] .C).2.1
    (by decide), (view_shape_validation ⟨.c_double, [0, 1, 2, 3, 4, 5]⟩ [6] .C).2.2⟩

/-- **C7** Unsupported dtype: every dtype other than `float32` / `float64`
is absent from the mapping table, and allocation then fails with
`UnsupportedDtype`; registered dtypes get a buffer whose element count is
the product of the shape's dimensions. -/
theorem unsupported_dtype (d : NpDtype) (s : List Nat) :
    (_numpy_to_ctypes d = none ↔ d ≠ .float32 ∧ d ≠ .float64) ∧
    (_numpy_to_ctypes d = none →
      init_shm_ndarray s d = .error .UnsupportedDtype ∧
      init_shm_value d = .error .UnsupportedDtype) ∧
    (∀ ct, _numpy_to_ctypes d = some ct →
      init_shm_ndarray s d = .ok ⟨ct, List.replicate s.prod 0⟩ ∧
      ∀ arr, init_shm_ndarray s d = .ok arr → arr.data.length = s.prod) := by
  cases d <;>
    simp [_numpy_to_ctypes, ctypesToNumpyPairs, init_shm_ndarray,
      init_shm_value]

/-- Witness for C7: `int32` is rejected, `float64` allocates `2 * 3`
elements (stored with the `'d'` typecode the dict-override selects). -/
theorem unsupported_dtype_witness :
    _numpy_to_ctypes .int32 = none ∧
    init_shm_ndarray [2, 3] .int32 = .error .UnsupportedDtype ∧
    init_shm_ndarray [2, 3] .float64
      = .ok ⟨.d_code, List.replicate 6 0⟩ := by
  refine ⟨(unsupported_dtype .int32 [2, 3]).1.mpr (by decide), ?_, ?_⟩
  · exact ((unsupported_dtype .int32 [2, 3]).2.1
      ((unsupported_dtype .int32 [2, 3]).1.mpr (by decide))).1
  · exact ((unsupported_dtype .float64 [2, 3]).2.2 .d_code (by decide)).1

/-- **C9** Timeout atomicity: a `get_buffer` call given a timeout fails with
`Timeout` exactly when the free list is empty, and on that failure the
manager — in particular the free list's contents and order — is returned
unchanged; likewise for the dict variant. -/
theorem timeout_no_side_effect (m : BufferManager)
    (md : BufferedDictManager) (t : Nat) (blen : Option Nat) :
    ((m.get_buffer (some t)).1 = .timedOut ↔ m.queue = []) ∧
    ((m.get_buffer (some t)).1 = .timedOut → (m.get_buffer (some t)).2 = m) ∧
    ((md.get_buffer blen (some t)).1 = .timedOut ↔ md.queue = []) ∧
    ((md.get_buffer blen (some t)).1 = .timedOut →
      (md.get_buffer blen (some t)).2 = md) := by
  obtain ⟨bs, q, sh, np⟩ := m
  obtain ⟨dbs, dq, dnd⟩ := md
  cases q <;> cases dq <;>
    simp [BufferManager.get_buffer, BufferedDictManager.get_buffer]

/-- Witness for C9: on a pool with an empty free list, `get_buffer` with a
timeout of 1 times out and leaves the manager exactly as it was. -/
theorem timeout_no_side_effect_witness :
    (emptyQueueManager.get_buffer (some 1)).1 = .timedOut ∧
    (emptyQueueManager.get_buffer (some 1)).2 = emptyQueueManager ∧
    (emptyQueueDictManager.get_buffer none (some 1)).2
      = emptyQueueDictManager := by
  have h := timeout_no_side_effect emptyQueueManager emptyQueueDictManager 1 none
  refine ⟨h.1.mpr rfl, h.2.1 (h.1.mpr rfl), h.2.2.2 (h.2.2.1.mpr rfl)⟩

/-- **C10** Unvalidated reclaim: `reclaim` never fails and unconditionally
appends its argument to the free list — for any id, in range or not,
already free or not; reclaiming the same id twice with no intervening
`get_buffer` leaves the queue holding it twice, destroying the
no-duplicates invariant, and the dict variant behaves identically. -/
theorem reclaim_unvalidated (m : BufferManager) (md : BufferedDictManager)
    (buffer_id : Nat) :
    (m.reclaim buffer_id).queue = m.queue ++ [buffer_id] ∧
    ((m.reclaim buffer_id).reclaim buffer_id).queue
      = m.queue ++ [buffer_id, buffer_id] ∧
    2 ≤ ((m.reclaim buffer_id).reclaim buffer_id).queue.count buffer_id ∧
    ¬ ((m.reclaim buffer_id).reclaim buffer_id).queue.Nodup ∧
    (md.reclaim buffer_id).queue = md.queue ++ [buffer_id] := by
  refine ⟨rfl, by simp [BufferManager.reclaim, queuePut], ?_, ?_, rfl⟩
  · simp [BufferManager.reclaim, queuePut, List.count_append]
  · intro hnd
    have h1 := List.nodup_iff_count_le_one.mp hnd buffer_id
    have h2 : 2 ≤ ((m.reclaim buffer_id).reclaim buffer_id).queue.count
        buffer_id := by
      simp [BufferManager.reclaim, queuePut, List.count_append]
    omega

/-- **C3** Single-consumer FIFO order: with the free list holding `a, b, c`
in that order, a consumer that alternates `get_buffer` with a `reclaim` of
only the id just returned receives `a`, then `b`, then `c`. -/
theorem single_consumer_fifo (m : BufferManager) (a b c : Nat)
    (h : m.queue = [a, b, c]) :
    gotId (m.get_buffer none).1 = some a ∧
    gotId (((m.get_buffer none).2.reclaim a).get_buffer none).1 = some b ∧
    gotId (((((m.get_buffer none).2.reclaim a).get_buffer
      none).2.reclaim b).get_buffer none).1 = some c := by
  obtain ⟨bs, q, sh, np⟩ := m
  simp only [BufferManager.queue] at h
  subst h
  simp [BufferManager.get_buffer, BufferManager.reclaim, queuePut, gotId]

/-- Witness for C3 on the pool whose free list is `3, 5, 9`. -/
theorem single_consumer_fifo_witness :
    gotId (threeSlotManager.get_buffer none).1 = some 3 ∧
    gotId (((threeSlotManager.get_buffer none).2.reclaim 3).get_buffer
      none).1 = some 5 ∧
    gotId (((((threeSlotManager.get_buffer none).2.reclaim 3).get_buffer
      none).2.reclaim 5).get_buffer none).1 = some 9 :=
  single_consumer_fifo threeSlotManager 3 5 9 rfl

/-- Draining a manager whose queue is `q` for `q.length` steps: every call
succeeds, the ids come out in queue order with their mapped views, and the
queue ends empty (the rest of the manager untouched). -/
theorem drainManager_eq (tmo : Option Nat) (q : List Nat) :
    ∀ m : BufferManager, m.queue = q →
      (drainManager tmo q.length m).1
        = q.map (fun bid => QGet.got (bid, m.map_buffer bid none)) ∧
      (drainManager tmo q.length m).2 = { m with queue := [] } := by
  induction q with
  | nil =>
      intro m hm
      obtain ⟨bs, mq, sh, np⟩ := m
      simp only [BufferManager.queue] at hm
      subst hm
      simp [drainManager]
  | cons x xs ih =>
      intro m hm
      obtain ⟨bs, mq, sh, np⟩ := m
      simp only [BufferManager.queue] at hm
      subst hm
      have hrest := ih ⟨bs, xs, sh, np⟩ rfl
      simp only [drainManager, BufferManager.get_buffer, List.length_cons,
        List.map_cons] at hrest ⊢
      refine ⟨?_, hrest.2⟩
      rw [hrest.1]
      exact congrArg₂ _ rfl rfl

/-- **C2** Pool-drain behaviour: on a pool seeded with ids `0 … N-1` (as
`create_buffers` seeds it), `N` successive `get_buffer` calls with no
intervening reclaim all succeed and return the `N` distinct slot ids, and
the `(N+1)`-th call times out when a timeout is given and blocks
indefinitely when none is. -/
theorem pool_drain (N : Nat) (hN : 0 < N) (tmo : Option Nat) (t : Nat)
    (m : BufferManager) (hq : m.queue = List.range N) :
    ((drainManager tmo N m).1).map gotId = (List.range N).map some ∧
    (((drainManager tmo N m).1).filterMap gotId).Nodup ∧
    ((drainManager tmo N m).2.get_buffer (some t)).1 = .timedOut ∧
    ((drainManager tmo N m).2.get_buffer none).1 = .blocked := by
  have hlen : N = (List.range N).length := (List.length_range N).symm
  have h := drainManager_eq tmo (List.range N) m hq
  rw [← hlen] at h
  obtain ⟨h1, h2⟩ := h
  refine ⟨?_, ?_, ?_, ?_⟩
  · rw [h1]; simp [gotId]
  · rw [h1]
    have heq : (List.map (fun bid => QGet.got (bid, m.map_buffer bid none))
        (List.range N)).filterMap gotId = List.range N := by
      simp [List.filterMap_map, Function.comp_def, gotId]
    rw [heq]
    exact List.nodup_range N
  · rw [h2]; rfl
  · rw [h2]; rfl

/-- Witness for C2 at `N = 2` on a freshly seeded two-slot pool. -/
theorem pool_drain_witness :
    ((drainManager (some 1) 2 twoSlotManager).1).map gotId
      = [some 0, some 1] ∧
    ((drainManager (some 1) 2 twoSlotManager).2.get_buffer (some 1)).1
      = .timedOut ∧
    ((drainManager (some 1) 2 twoSlotManager).2.get_buffer none).1
      = .blocked := by
  have h := pool_drain 2 (by decide) (some 1) 1 twoSlotManager rfl
  exact ⟨by simpa using h.1, h.2.2.1, h.2.2.2⟩

/-- Whenever `create_buffers` succeeds, the free list it returns is exactly
`0, 1, …, buf_count-1`. -/
theorem create_buffers_queue (buf_count : Nat) (buf_shape : List Nat)
    (dtype : NpDtype) (buffers : List MpArray) (q : List Nat)
    (h : create_buffers buf_count buf_shape dtype = .ok (buffers, q)) :
    q = List.range buf_count := by
  unfold create_buffers at h
  cases hm : (List.range buf_count).mapM
      (fun _ => init_shm_ndarray buf_shape dtype) with
  | error e => rw [hm] at h; cases h
  | ok v =>
      rw [hm] at h
      cases h
      rfl

/-- Whenever `create_dict_buffers` succeeds, the free list it returns is
exactly `0, 1, …, buf_count-1`. -/
theorem create_dict_buffers_queue (recordables : List String)
    (buf_count : Nat) (buf_len : Nat) (dtype : NpDtype)
    (buffers : List (List (String × MpArray))) (q : List Nat)
    (h : create_dict_buffers recordables buf_count buf_len dtype
      = .ok (buffers, q)) :
    q = List.range buf_count := by
  unfold create_dict_buffers at h
  cases hm : (List.range buf_count).mapM
      (fun _ => recordables.mapM
        (fun k => (init_shm_ndarray [buf_len] dtype).map ((k, ·)))) with
  | error e => rw [hm] at h; cases h
  | ok v =>
      rw [hm] at h
      cases h
      rfl

/-- Every cooperative step preserves the multiset `queue + held`. -/
theorem coopStep_perm {s t : PoolState}
    (h : Relation.ReflTransGen CoopStep s t) :
    (t.queue ++ t.held).Perm (s.queue ++ s.held) := by
  induction h with
  | refl => exact List.Perm.refl _
  | tail hst hstep ih =>
      cases hstep with
      | get buffer_id rest held =>
          exact List.Perm.trans List.perm_middle ih
      | reclaim q held buffer_id mem =>
          refine List.Perm.trans ?_ ih
          have harr : (queuePut q buffer_id) ++ held.erase buffer_id
              = q ++ (buffer_id :: held.erase buffer_id) := by
            simp [queuePut]
          rw [harr]
          exact List.Perm.append_left q (List.perm_cons_erase mem).symm

/-- **C1** Free-list invariant: for a pool of size `N` built by
`create_buffers` (or `create_dict_buffers` — both seed the free list with
`0 … N-1`), along every cooperative trace of `get_buffer` / `reclaim`
steps, every slot id below `N` is either free in the queue or held by
exactly one consumer, never both; the queue has no duplicates; and its
contents stay inside `[0, N)`. -/
theorem free_list_invariant (N : Nat) (buf_shape : List Nat)
    (recordables : List String) (buf_len : Nat) (dtype : NpDtype)
    (q0 : List Nat) (s : PoolState)
    (hcreate :
      (∃ buffers, create_buffers N buf_shape dtype = .ok (buffers, q0)) ∨
      (∃ buffers, create_dict_buffers recordables N buf_len dtype
        = .ok (buffers, q0)))
    (hreach : Relation.ReflTransGen CoopStep ⟨q0, []⟩ s) :
    s.queue.Nodup ∧ (∀ i ∈ s.queue, i < N) ∧
      (∀ i, i < N →
        (i ∈ s.queue ∧ i ∉ s.held) ∨
        (i ∉ s.queue ∧ s.held.count i = 1)) := by
  have hq0 : q0 = List.range N := by
    rcases hcreate with ⟨buffers, h⟩ | ⟨buffers, h⟩
    · exact create_buffers_queue N buf_shape dtype buffers q0 h
    · exact create_dict_buffers_queue recordables N buf_len dtype buffers q0 h
  subst hq0
  have hperm : (s.queue ++ s.held).Perm (List.range N) := by
    simpa using coopStep_perm hreach
  have hnd : (s.queue ++ s.held).Nodup :=
    (hperm.symm).nodup (List.nodup_range N)
  obtain ⟨hndq, hndh, hdisj⟩ := List.nodup_append.mp hnd
  refine ⟨hndq, ?_, ?_⟩
  · intro i hi
    exact List.mem_range.mp
      (hperm.mem_iff.mp (List.mem_append_left _ hi))
  · intro i hi
    have hmem : i ∈ s.queue ++ s.held :=
      hperm.mem_iff.mpr (List.mem_range.mpr hi)
    by_cases hq : i ∈ s.queue
    · exact Or.inl ⟨hq, fun hh => hdisj hq hh⟩
    · have hh : i ∈ s.held := by
        rcases List.mem_append.mp hmem with h | h
        · exact absurd h hq
        · exact h
      exact Or.inr ⟨hq, List.count_eq_one_of_mem hndh hh⟩

/-- Witness for C1: from a two-slot pool built by `create_buffers`, one
`get_buffer` step reaches the state with slot 0 checked out and slot 1
free, and the invariant holds there. -/
theorem free_list_invariant_witness :
    ([1] : List Nat).Nodup ∧ (∀ i ∈ ([1] : List Nat), i < 2) ∧
      (∀ i, i < 2 →
        (i ∈ ([1] : List Nat) ∧ i ∉ ([0] : List Nat)) ∨
        (i ∉ ([1] : List Nat) ∧ ([0] : List Nat).count i = 1)) := by
  have hreach : Relation.ReflTransGen CoopStep ⟨List.range 2, []⟩ ⟨[1], [0]⟩ := by
    have : CoopStep ⟨List.range 2, []⟩ ⟨[1], [0]⟩ := by
      have h : List.range 2 = 0 :: [1] := by decide
      rw [h]
      exact CoopStep.get 0 [1] []
    exact Relation.ReflTransGen.single this
  exact free_list_invariant 2 [1] [] 0 .float64 (List.range 2) ⟨[1], [0]⟩
    (Or.inl ⟨[⟨.d_code, [0]⟩, ⟨.d_code, [0]⟩], rfl⟩) hreach

/-- `npSlice` on a view with a nonempty shape and a stop no larger than the
leading extent: the result exists, its leading extent is exactly `L`, its
lower axes are unchanged, and it exposes the first `L` leading blocks of
the original data. -/
theorem npSlice_spec (v : NdView) (L : Nat) (hsh : v.shape ≠ [])
    (hL : L ≤ v.shape.headD 0) :
    ∃ w, npSlice v L = some w ∧ w.shape.headD 0 = L ∧
      w.shape.tail = v.shape.tail ∧
      w.data = v.data.take (L * v.shape.tail.prod) := by
  obtain ⟨shape, ord, data⟩ := v
  cases shape with
  | nil => simp at hsh
  | cons s0 rest =>
      simp only [NdView.shape, List.headD_cons] at hL
      have hmin : min L s0 = L := by omega
      exact ⟨⟨min L s0 :: rest, ord, data.take (min L s0 * rest.prod)⟩,
        rfl, by simp [hmin], rfl, by simp [hmin]⟩

/-- Truncating every field of a record slot: when every field view has a
nonempty shape and accommodates `L` along its leading axis, the per-field
`v[0:L]` map succeeds and produces, field by field (same names, same
order), a view of leading length `L` whose data is the first `L` leading
blocks of the full-capacity view. -/
theorem slot_truncation (slot : DictSlot) (L : Nat)
    (hsh : ∀ kv ∈ slot, (kv : String × NdView).2.shape ≠ [])
    (hL : ∀ kv ∈ slot, L ≤ (kv : String × NdView).2.shape.headD 0) :
    ∃ r, truncFields slot L = some r ∧
      List.Forall₂ (fun p q : String × NdView =>
        p.1 = q.1 ∧ p.2.shape.headD 0 = L ∧ p.2.shape.tail = q.2.shape.tail ∧
        p.2.data = q.2.data.take (L * q.2.shape.tail.prod)) r slot := by
  induction slot with
  | nil => exact ⟨[], rfl, List.Forall₂.nil⟩
  | cons kv tl ih =>
      obtain ⟨w, hw, hwh, hwt, hwd⟩ :=
        npSlice_spec kv.2 L (hsh kv (List.mem_cons_self kv tl))
          (hL kv (List.mem_cons_self kv tl))
      obtain ⟨r, hr, hfa⟩ :=
        ih (fun x hx => hsh x (List.mem_cons_of_mem kv hx))
          (fun x hx => hL x (List.mem_cons_of_mem kv hx))
      refine ⟨(kv.1, w) :: r, ?_, List.Forall₂.cons ⟨rfl, hwh, hwt, hwd⟩ hfa⟩
      simp [truncFields, hw, hr]

/-- **C5** Length-truncated projection: dequeuing a slot with
`get_buffer(length=L)` hands out, for every field, a view of leading
length `L` whose contents are the first `L` leading entries of that
field's full-capacity view (here `L` is at most each allocated leading
extent); with the length omitted, the full-capacity views come back. -/
theorem length_truncated_projection (md : BufferedDictManager)
    (buffer_id : Nat) (rest : List Nat) (slot : DictSlot) (L : Nat)
    (tmo : Option Nat)
    (hq : md.queue = buffer_id :: rest)
    (hslot : md.buffers_nd[buffer_id]? = some slot)
    (hsh : ∀ kv ∈ slot, (kv : String × NdView).2.shape ≠ [])
    (hL : ∀ kv ∈ slot, L ≤ (kv : String × NdView).2.shape.headD 0) :
    (md.get_buffer (some L) tmo).1
      = .got (buffer_id, md.map_buffer buffer_id (some L)) ∧
    md.map_buffer buffer_id none = some slot ∧
    ∃ r, md.map_buffer buffer_id (some L) = some r ∧
      List.Forall₂ (fun p q : String × NdView =>
        p.1 = q.1 ∧ p.2.shape.headD 0 = L ∧ p.2.shape.tail = q.2.shape.tail ∧
        p.2.data = q.2.data.take (L * q.2.shape.tail.prod)) r slot := by
  obtain ⟨dbs, dq, dnd⟩ := md
  simp only [BufferedDictManager.queue] at hq
  subst hq
  obtain ⟨r, hr, hfa⟩ := slot_truncation slot L hsh hL
  refine ⟨rfl, ?_, r, ?_, hfa⟩
  · simp [BufferedDictManager.map_buffer, hslot]
  · simp [BufferedDictManager.map_buffer, hslot, hr]

/-- Witness for C5: on `sampleDictManager` with `L = 2`, field `x` is cut
from `[1, 2, 3]` to `[1, 2]` and field `y` keeps `[4, 5]`. -/
theorem length_truncated_projection_witness :
    (sampleDictManager.get_buffer (some 2) none).1
      = .got (0, sampleDictManager.map_buffer 0 (some 2)) ∧
    sampleDictManager.map_buffer 0 none = some sampleDictSlot ∧
    ∃ r, sampleDictManager.map_buffer 0 (some 2) = some r ∧
      List.Forall₂ (fun p q : String × NdView =>
        p.1 = q.1 ∧ p.2.shape.headD 0 = 2 ∧ p.2.shape.tail = q.2.shape.tail ∧
        p.2.data = q.2.data.take (2 * q.2.shape.tail.prod)) r sampleDictSlot :=
  length_truncated_projection sampleDictManager 0 [] sampleDictSlot 2 none
    rfl rfl (by decide) (by decide)

/-- **C6 counterexample**: `map_buffer` guards with `if not indices:`, and
the integer `0` is falsy in Python — so `map_buffer(0, indices=0)` on a
two-element slot returns the WHOLE view `[5, 7]`, not the sub-view at
index 0 (`5`) that the claim promises for every provided `indices`. -/
theorem index_projection_counterexample :
    BufferManager.map_buffer sampleManager 0 (some 0) = some sampleView ∧
    npIndex sampleView 0 = some ⟨[], .C, [5]⟩ ∧
    BufferManager.map_buffer sampleManager 0 (some 0)
      ≠ npIndex sampleView 0 := by
  refine ⟨rfl, by decide, by decide⟩

/-- **C6 amended** Index projection: for a valid slot id, `map_buffer`
applies the index projection for every TRUTHY (nonzero) `indices`
argument; when `indices` is omitted — or equal to the falsy integer `0` —
it returns the slot's full view. -/
theorem index_projection_amended (m : BufferManager) (buffer_id : Nat)
    (v : NdView) (hv : m.buffers_np[buffer_id]? = some v) (i : Int) :
    (i ≠ 0 → m.map_buffer buffer_id (some i) = npIndex v i) ∧
    m.map_buffer buffer_id (some 0) = some v ∧
    m.map_buffer buffer_id none = some v := by
  unfold BufferManager.map_buffer
  rw [hv]
  exact ⟨fun hi => by simp [hi], by simp, rfl⟩

/-- Witness for amended C6: on `sampleManager`, index `1` projects to the
element `7` and the omitted argument returns the full view. -/
theorem index_projection_amended_witness :
    BufferManager.map_buffer sampleManager 0 (some 1) = npIndex sampleView 1 ∧
    BufferManager.map_buffer sampleManager 0 none = some sampleView :=
  ⟨(index_projection_amended sampleManager 0 sampleView rfl 1).1 (by decide),
   (index_projection_amended sampleManager 0 sampleView rfl 1).2.2⟩

/-- The head step of `allocInputFields`: with a registered dtype, a field
of shape `sh` gets a zero-filled buffer of `(input_shape sh).prod`
elements. -/
theorem allocField_head (sh : Option (List Nat)) (dtype : NpDtype)
    (ct : Ctype) (hct : _numpy_to_ctypes dtype = some ct) :
    (match sh with
      | none => init_shm_ndarray [1] dtype
      | some s =>
          if s.length = 0 then init_shm_ndarray [1] dtype
          else init_shm_ndarray s dtype)
      = .ok ⟨ct, List.replicate (input_shape sh).prod 0⟩ := by
  rcases sh with _ | s
  · simp [init_shm_ndarray, hct, input_shape]
  · by_cases hs : s.length = 0
    · have hs' : s = [] := List.length_eq_zero.mp hs
      subst hs'
      simp [init_shm_ndarray, hct, input_shape]
    · simp [init_shm_ndarray, hct, input_shape, hs]

/-- With a registered dtype, the allocation loop of
`create_shm_dict_inputs` produces, per field, a zero-filled buffer of
`(input_shape sh).prod` elements. -/
theorem allocInputFields_eq (sm : List (String × Option (List Nat)))
    (dtype : NpDtype) (ct : Ctype)
    (hct : _numpy_to_ctypes dtype = some ct) :
    allocInputFields sm dtype = .ok (sm.map (fun kv =>
      (kv.1, ⟨ct, List.replicate (input_shape kv.2).prod 0⟩))) := by
  induction sm with
  | nil => rfl
  | cons kv tl ih =>
      rcases kv with ⟨k, sh⟩
      show (match (match sh with
        | none => init_shm_ndarray [1] dtype
        | some s =>
            if s.length = 0 then init_shm_ndarray [1] dtype
            else init_shm_ndarray s dtype) with
        | Except.error e => Except.error e
        | Except.ok buf =>
            match allocInputFields tl dtype with
            | Except.error e => Except.error e
            | Except.ok rest => Except.ok ((k, buf) :: rest))
        = Except.ok (((k, sh) :: tl).map
            (fun kv => (kv.1, ⟨ct, List.replicate (input_shape kv.2).prod 0⟩)))
      rw [allocField_head sh dtype ct hct, ih]
      rfl

/-- A duplicate-free association list looks up each of its own entries. -/
theorem lookup_of_nodup_keys {α : Type} (sm : List (String × α)) (k : String)
    (v : α) (hnd : (sm.map Prod.fst).Nodup) (hmem : (k, v) ∈ sm) :
    sm.lookup k = some v := by
  induction sm with
  | nil => cases hmem
  | cons kv tl ih =>
      rcases List.mem_cons.mp hmem with h | h
      · subst h
        simp [List.lookup]
      · have hne : k ≠ kv.1 := by
          intro he
          have : kv.1 ∈ tl.map Prod.fst := by
            rw [← he]
            exact List.mem_map_of_mem Prod.fst h
          exact (List.nodup_cons.mp hnd).1 this
        have hbeq : (k == kv.1) = false := beq_false_of_ne hne
        simp [List.lookup, hbeq]
        exact ih (List.nodup_cons.mp hnd).2 h

/-- The head step of `shm_to_nd_dict_inputs` on a buffer allocated for
shape `sh`: the reshape succeeds and yields a zero-filled view of shape
`input_shape sh`. -/
theorem mapInputField_head (sh : Option (List Nat)) (ct : Ctype)
    (ord : MemOrder) :
    (match sh with
      | none =>
          shm_as_ndarray ⟨ct, List.replicate (input_shape sh).prod 0⟩
            (some [1]) ord
      | some s =>
          if s.length = 0 then
            shm_as_ndarray ⟨ct, List.replicate (input_shape sh).prod 0⟩
              (some [1]) ord
          else
            shm_as_ndarray ⟨ct, List.replicate (input_shape sh).prod 0⟩
              (some s) ord)
      = .ok ⟨input_shape sh, ord,
          List.replicate (input_shape sh).prod 0⟩ := by
  rcases sh with _ | s
  · simp [shm_as_ndarray, input_shape]
  · by_cases hs : s.length = 0
    · have hs' : s = [] := List.length_eq_zero.mp hs
      subst hs'
      simp [shm_as_ndarray, input_shape]
    · simp [shm_as_ndarray, input_shape, hs]

/-- Reconstructing the views of buffers allocated by `allocInputFields`:
every field succeeds and yields a zero-filled view of shape
`input_shape sh`. -/
theorem mapInputFields_eq (sm : List (String × Option (List Nat)))
    (shapes : List (String × Option (List Nat))) (ct : Ctype)
    (ord : MemOrder)
    (hlk : ∀ kv ∈ sm, shapes.lookup
      (kv : String × Option (List Nat)).1 = some kv.2) :
    mapInputFields (sm.map (fun kv =>
      (kv.1, ⟨ct, List.replicate (input_shape kv.2).prod 0⟩))) shapes ord
      = .ok (sm.map (fun kv =>
          (kv.1, ⟨input_shape kv.2, ord,
            List.replicate (input_shape kv.2).prod 0⟩))) := by
  induction sm with
  | nil => rfl
  | cons kv tl ih =>
      rcases kv with ⟨k, sh⟩
      have hhd : shapes.lookup k = some sh :=
        hlk ⟨k, sh⟩ (List.mem_cons_self _ _)
      have htl := ih (fun x hx => hlk x (List.mem_cons_of_mem _ hx))
      rcases sh with _ | s
      · have hin : input_shape none = [1] := rfl
        simp [mapInputFields, hhd, shm_as_ndarray, hin, htl]
      · by_cases hs : s.length = 0
        · have hs' : s = [] := List.length_eq_zero.mp hs
          subst hs'
          have hin : input_shape (some []) = [1] := rfl
          simp [mapInputFields, hhd, shm_as_ndarray, hin, htl]
        · have hin : input_shape (some s) = s := by
            simp [input_shape, hs]
          simp [mapInputFields, hhd, shm_as_ndarray, hin, hs, htl]

/-- **C8** Scalar-field degeneration: for every shape map with distinct
field names and a registered dtype, `create_shm_dict_inputs` gives a field
whose shape is `None` or empty a single-element buffer, and after
`shm_to_nd_dict_inputs` its view has shape `(1,)` and length 1, while a
field with a nonempty shape `s` gets a view of shape `s` with
`s.prod` elements — in particular `{x: (), y: (10,)}` yields views of
length 1 for `x` and 10 for `y` (see the witness). -/
theorem scalar_field_degeneration (sm : List (String × Option (List Nat)))
    (dtype : NpDtype) (ct : Ctype) (ord : MemOrder)
    (hct : _numpy_to_ctypes dtype = some ct)
    (hnd : (sm.map Prod.fst).Nodup) :
    ∃ buffers views,
      create_shm_dict_inputs sm dtype = .ok (buffers, sm) ∧
      shm_to_nd_dict_inputs buffers sm ord = .ok views ∧
      List.Forall₂ (fun (pb : String × MpArray)
          (ps : String × Option (List Nat)) =>
        pb.1 = ps.1 ∧
        ((ps.2 = none ∨ ps.2 = some []) → pb.2.data.length = 1)) buffers sm ∧
      List.Forall₂ (fun (pv : String × NdView)
          (ps : String × Option (List Nat)) =>
        pv.1 = ps.1 ∧
        ((ps.2 = none ∨ ps.2 = some []) →
          pv.2.shape = [1] ∧ pv.2.data.length = 1) ∧
        (∀ s, ps.2 = some s → s ≠ [] →
          pv.2.shape = s ∧ pv.2.data.length = s.prod)) views sm := by
  have halloc := allocInputFields_eq sm dtype ct hct
  have hlk : ∀ kv ∈ sm, sm.lookup
      (kv : String × Option (List Nat)).1 = some kv.2 :=
    fun kv hkv => lookup_of_nodup_keys sm kv.1 kv.2 hnd hkv
  have hmap := mapInputFields_eq sm sm ct ord hlk
  refine ⟨sm.map (fun kv =>
      (kv.1, ⟨ct, List.replicate (input_shape kv.2).prod 0⟩)),
    sm.map (fun kv =>
      (kv.1, ⟨input_shape kv.2, ord,
        List.replicate (input_shape kv.2).prod 0⟩)), ?_, ?_, ?_, ?_⟩
  · unfold create_shm_dict_inputs
    rw [halloc]
  · unfold shm_to_nd_dict_inputs
    exact hmap
  · rw [List.forall₂_map_left_iff, List.forall₂_same]
    intro kv _
    refine ⟨rfl, ?_⟩
    rintro (h | h) <;> simp [h, input_shape]
  · rw [List.forall₂_map_left_iff, List.forall₂_same]
    intro kv _
    refine ⟨rfl, ?_, ?_⟩
    · rintro (h | h) <;> simp [h, input_shape]
    · intro s hs hne
      have hlen : s.length ≠ 0 := fun h => hne (List.length_eq_zero.mp h)
      simp [hs, input_shape, hlen]

/-- Witness for C8 at the claim's concrete map `{x: (), y: (10,)}` with
`float64` (stored via the `'d'` typecode): `x` gets a one-element view,
`y` a ten-element view. -/
theorem scalar_field_degeneration_witness :
    ∃ buffers views,
      create_shm_dict_inputs [("x", some []), ("y", some [10])] .float64
        = .ok (buffers, [("x", some []), ("y", some [10])]) ∧
      shm_to_nd_dict_inputs buffers [("x", some []), ("y", some [10])] .C
        = .ok views ∧
      List.Forall₂ (fun (pb : String × MpArray)
          (ps : String × Option (List Nat)) =>
        pb.1 = ps.1 ∧
        ((ps.2 = none ∨ ps.2 = some []) → pb.2.data.length = 1)) buffers
        [("x", some []), ("y", some [10])] ∧
      List.Forall₂ (fun (pv : String × NdView)
          (ps : String × Option (List Nat)) =>
        pv.1 = ps.1 ∧
        ((ps.2 = none ∨ ps.2 = some []) →
          pv.2.shape = [1] ∧ pv.2.data.length = 1) ∧
        (∀ s, ps.2 = some s → s ≠ [] →
          pv.2.shape = s ∧ pv.2.data.length = s.prod)) views
        [("x", some []), ("y", some [10])] :=
  scalar_field_degeneration [("x", some []), ("y", some [10])] .float64
    .d_code .C rfl (by decide)

end Buffers
